import Mathlib

/-!
# mysqldays audit plugin: event filter and statement scanner

Shallow embedding of `src/mysqldays.cc`:

* `should_skip_event` (lines 104-146), the event filter;
* `mysqldays_notify` (lines 162-221), the audit callback that walks the
  statement's table list and updates the three status counters.

The process-wide variables (`status_total_queries`,
`status_total_special_queries`, `status_total_time_us`) and the plugin log are
threaded explicitly through a `PluginState`.  The counters are `unsigned long`;
every `__atomic_fetch_add` is modelled as addition modulo `ULONG_MOD`.
The two readings of `my_micro_time()` are inputs of each invocation.
-/

namespace MysqlDays

/-! ## Host types -/

/-- Modelled from the spec: `mysql_event_class_t` is declared in the host header
`mysql/plugin_audit.h`, which is not part of the repository; the event category
is a host-defined enumeration.  The thirteen classes are the ones listed, in
order, in the class-mask array of `mysqldays_descriptor`. -/
inductive mysql_event_class_t where
  | MYSQL_AUDIT_GENERAL_CLASS
  | MYSQL_AUDIT_CONNECTION_CLASS
  | MYSQL_AUDIT_PARSE_CLASS
  | MYSQL_AUDIT_AUTHORIZATION_CLASS
  | MYSQL_AUDIT_TABLE_ACCESS_CLASS
  | MYSQL_AUDIT_GLOBAL_VARIABLE_CLASS
  | MYSQL_AUDIT_SERVER_STARTUP_CLASS
  | MYSQL_AUDIT_SERVER_SHUTDOWN_CLASS
  | MYSQL_AUDIT_COMMAND_CLASS
  | MYSQL_AUDIT_QUERY_CLASS
  | MYSQL_AUDIT_STORED_PROGRAM_CLASS
  | MYSQL_AUDIT_AUTHENTICATION_CLASS
  | MYSQL_AUDIT_MESSAGE_CLASS
  deriving DecidableEq, Repr

/-- Modelled from the spec: `mysql_event_query_subclass_t` is declared in the
host header `mysql/plugin_audit.h`, which is not part of the repository; the
subclass is a host-defined enumeration of the phases of a query, of which the
source names only `MYSQL_AUDIT_QUERY_START`. -/
inductive mysql_event_query_subclass_t where
  | MYSQL_AUDIT_QUERY_START
  | MYSQL_AUDIT_QUERY_NESTED_START
  | MYSQL_AUDIT_QUERY_STATUS_END
  | MYSQL_AUDIT_QUERY_NESTED_STATUS_END
  deriving DecidableEq, Repr

/-- Modelled from the spec: `enum_sql_command` is declared in the host header
`my_sqlcommand.h`, which is not part of the repository; the command identifier
is an enumerated SQL operation kind.  The fourteen enumerators named in the
source (doc comment and `switch` of `should_skip_event`) are constructors of
their own; `SQLCOM_OTHER n` stands for every other enumerator of the host. -/
inductive enum_sql_command where
  | SQLCOM_SELECT
  | SQLCOM_INSERT
  | SQLCOM_UPDATE
  | SQLCOM_INSERT_SELECT
  | SQLCOM_DELETE
  | SQLCOM_TRUNCATE
  | SQLCOM_DELETE_MULTI
  | SQLCOM_UPDATE_MULTI
  | SQLCOM_PREPARE
  | SQLCOM_EXECUTE
  | SQLCOM_BINLOG_BASE64_EVENT
  | SQLCOM_IMPORT
  | SQLCOM_CREATE_SRS
  | SQLCOM_DROP_SRS
  | SQLCOM_OTHER (n : Nat)
  deriving DecidableEq, Repr

/-- The part of the host's `mysql_event_query` payload that the plugin reads:
the fields seen through the cast of the `event` pointer. -/
structure mysql_event_query where
  event_subclass : mysql_event_query_subclass_t
  sql_command_id : enum_sql_command
  deriving DecidableEq, Repr

/-- Severity of a message handed to `my_plugin_log_message`. -/
inductive plugin_log_level where
  | MY_ERROR_LEVEL
  | MY_WARNING_LEVEL
  | MY_INFORMATION_LEVEL
  deriving DecidableEq, Repr

/-- One call of `my_plugin_log_message`: the level, the format string and the
event class passed for `%d` (when the format has one). -/
structure LogEntry where
  level : plugin_log_level
  format : String
  arg : Option mysql_event_class_t
  deriving DecidableEq, Repr

/-- A node of the statement's table list (`Table_ref`), without its
`next_global` link: the list itself is a `List Table_ref`.  `table_name` is
`none` for a null pointer, otherwise the C string. -/
structure Table_ref where
  is_base_table : Bool
  is_view : Bool
  table_name : Option String
  deriving DecidableEq, Repr

/-- The statement's `LEX`: `query_tables` is the chain of `next_global` links,
the empty list being the null pointer. -/
structure LEX where
  query_tables : List Table_ref
  deriving DecidableEq, Repr

/-- The connection's security context: `user` is `user().str`, `none` for a
null pointer. -/
structure Security_context where
  user : Option String
  deriving DecidableEq, Repr

/-- The connection context `THD`: `lex` and `security_context` are `none` for a
null pointer. -/
structure THD where
  lex : Option LEX
  security_context : Option Security_context
  deriving DecidableEq, Repr

/-! ## Plugin state -/

/-- Number of values of an `unsigned long` (LP64). -/
def ULONG_MOD : Nat := 2 ^ 64

/-- The plugin's process-wide variables and the log it has written. -/
structure PluginState where
  status_total_queries : Nat
  status_total_special_queries : Nat
  status_total_time_us : Nat
  log : List LogEntry
  deriving DecidableEq, Repr

/-- The state at plugin start: all counters zero, nothing logged. -/
def PluginState.init : PluginState :=
  { status_total_queries := 0
    status_total_special_queries := 0
    status_total_time_us := 0
    log := [] }

/-- The call `__atomic_fetch_add(&x, n, __ATOMIC_RELAXED)` on an
`unsigned long`: the new value of `x`. -/
def atomic_fetch_add (x n : Nat) : Nat := (x + n) % ULONG_MOD

/-- The call `my_plugin_log_message(&plugin, level, format, ...)`. -/
def my_plugin_log_message (log : List LogEntry) (level : plugin_log_level)
    (format : String) (arg : Option mysql_event_class_t) : List LogEntry :=
  log ++ [{ level := level, format := format, arg := arg }]

/-! ## The event filter -/

/-- Result of `should_skip_event`: the returned flag, the value left in the
reference parameter `event_query`, and the log afterwards. -/
structure SkipResult where
  skip : Bool
  event_query : Option mysql_event_query
  log : List LogEntry
  deriving DecidableEq, Repr

/-- The filter `should_skip_event` (lines 104-146).  `event_query` is null on
entry, as at its only call site. -/
def should_skip_event (event_class : mysql_event_class_t) (event : mysql_event_query)
    (log : List LogEntry) : SkipResult :=
  if event_class ≠ mysql_event_class_t.MYSQL_AUDIT_QUERY_CLASS then
    { skip := true
      event_query := none
      log := my_plugin_log_message log plugin_log_level.MY_WARNING_LEVEL
        "received event of wrong type %d, skipping" (some event_class) }
  else if event.event_subclass ≠ mysql_event_query_subclass_t.MYSQL_AUDIT_QUERY_START then
    { skip := true
      event_query := some event
      log := my_plugin_log_message log plugin_log_level.MY_WARNING_LEVEL
        "received event of wrong type %d, skipping" (some event_class) }
  else
    match event.sql_command_id with
    | enum_sql_command.SQLCOM_SELECT
    | enum_sql_command.SQLCOM_INSERT
    | enum_sql_command.SQLCOM_UPDATE
    | enum_sql_command.SQLCOM_INSERT_SELECT
    | enum_sql_command.SQLCOM_DELETE
    | enum_sql_command.SQLCOM_TRUNCATE
    | enum_sql_command.SQLCOM_DELETE_MULTI
    | enum_sql_command.SQLCOM_UPDATE_MULTI
    | enum_sql_command.SQLCOM_IMPORT =>
      { skip := false, event_query := some event, log := log }
    | _ => { skip := true, event_query := some event, log := log }

/-! ## The audit callback -/

/-- The user name resolved at lines 193-199: "unknown" when the security
context or its user string is null. -/
def resolve_username (thd : THD) : String :=
  match thd.security_context with
  | none => "unknown"
  | some sctx =>
    match sctx.user with
    | none => "unknown"
    | some u => u

/-- Body of the `for` loop at lines 201-213 for one table reference: the new
value of `status_total_special_queries`. -/
def scan_table (special : Nat) (this_table : Table_ref) : Nat :=
  if !this_table.is_base_table && !this_table.is_view then
    special
  else
    match this_table.table_name with
    | none => special
    | some name =>
      if name ≠ "" then
        if name = "special_table" then atomic_fetch_add special 1 else special
      else special

/-- The `for` loop at lines 201-213, following `next_global` from the head of
the list to the null pointer. -/
def scan_tables : List Table_ref → Nat → Nat
  | [], special => special
  | this_table :: next_global, special =>
    scan_tables next_global (scan_table special this_table)

/-- Elapsed time `my_micro_time() - start_us` in unsigned 64-bit arithmetic. -/
def elapsed_us (start_us end_us : Nat) : Nat :=
  (end_us % ULONG_MOD + ULONG_MOD - start_us % ULONG_MOD) % ULONG_MOD

/-- The audit callback `mysqldays_notify` (lines 162-221).  `plugin_enabled` is
the value of the system variable read at entry; `start_us` and `end_us` are the
two readings of `my_micro_time()`.  Returns the status handed back to the
server and the state afterwards. -/
def mysqldays_notify (plugin_enabled : Bool) (thd : THD)
    (event_class : mysql_event_class_t) (event : mysql_event_query)
    (start_us end_us : Nat) (st : PluginState) : Int × PluginState :=
  if !plugin_enabled then
    (0, st)
  else
    let r := should_skip_event event_class event st.log
    let st1 := { st with log := r.log }
    if r.skip then
      (0, st1)
    else
      match thd.lex with
      | none =>
        (0, { st1 with
              log := my_plugin_log_message st1.log plugin_log_level.MY_ERROR_LEVEL
                "Statement has no lexer information, unable to process it" none })
      | some lex =>
        match lex.query_tables with
        | [] => (0, st1)
        | query_tables@(_ :: _) =>
          let st2 := { st1 with
                       status_total_queries := atomic_fetch_add st1.status_total_queries 1 }
          let _username := resolve_username thd
          let st3 := { st2 with
                       status_total_special_queries :=
                         scan_tables query_tables st2.status_total_special_queries }
          let elapsed := elapsed_us start_us end_us
          (0, { st3 with
                status_total_time_us := atomic_fetch_add st3.status_total_time_us elapsed })

/-- One invocation of the callback, with everything the host supplies. -/
structure Invocation where
  plugin_enabled : Bool
  thd : THD
  event_class : mysql_event_class_t
  event : mysql_event_query
  start_us : Nat
  end_us : Nat
  deriving DecidableEq, Repr

/-- The state after one invocation. -/
def step (st : PluginState) (i : Invocation) : PluginState :=
  (mysqldays_notify i.plugin_enabled i.thd i.event_class i.event i.start_us i.end_us st).2

/-- The state after a finite sequence of invocations, in order. -/
def run (st : PluginState) (is : List Invocation) : PluginState :=
  is.foldl step st

/-! ## Auxiliary definitions for the statements -/

/-- The references the loop counts: base table or view, named exactly
"special_table". -/
def is_special_ref (t : Table_ref) : Bool :=
  (t.is_base_table || t.is_view) && decide (t.table_name = some "special_table")

/-- A SELECT event at the start of a query. -/
def selectStart : mysql_event_query :=
  { event_subclass := mysql_event_query_subclass_t.MYSQL_AUDIT_QUERY_START
    sql_command_id := enum_sql_command.SQLCOM_SELECT }

/-- A base-table reference with the given name. -/
def baseTable (name : String) : Table_ref :=
  { is_base_table := true, is_view := false, table_name := some name }

/-- A reference that is neither a base table nor a view (a derived table), with
the given name. -/
def derivedTable (name : String) : Table_ref :=
  { is_base_table := false, is_view := false, table_name := some name }

/-- A connection whose statement has the given table list. -/
def thdWithTables (tables : List Table_ref) : THD :=
  { lex := some { query_tables := tables }, security_context := none }

/-- A connection whose statement has no lexical information. -/
def thdNoLex : THD :=
  { lex := none, security_context := none }

/-- An enabled SELECT over the given table list, with clock readings 0 and 0. -/
def selectOver (tables : List Table_ref) : Invocation :=
  { plugin_enabled := true
    thd := thdWithTables tables
    event_class := mysql_event_class_t.MYSQL_AUDIT_QUERY_CLASS
    event := selectStart
    start_us := 0
    end_us := 0 }

/-- Every statement of the sequence references the designated table (as base
table or view) at most once. -/
def AtMostOneSpecial (invs : List Invocation) : Prop :=
  ∀ i ∈ invs, ∀ lex, i.thd.lex = some lex →
    lex.query_tables.countP is_special_ref ≤ 1

/-- The commands listed in the `case` labels of the `switch` at lines 130-143. -/
def switch_commands : List enum_sql_command :=
  [ enum_sql_command.SQLCOM_SELECT
  , enum_sql_command.SQLCOM_INSERT
  , enum_sql_command.SQLCOM_UPDATE
  , enum_sql_command.SQLCOM_INSERT_SELECT
  , enum_sql_command.SQLCOM_DELETE
  , enum_sql_command.SQLCOM_TRUNCATE
  , enum_sql_command.SQLCOM_DELETE_MULTI
  , enum_sql_command.SQLCOM_UPDATE_MULTI
  , enum_sql_command.SQLCOM_IMPORT ]

/-- An event of the given command at the start of a query. -/
def queryStart (cmd : enum_sql_command) : mysql_event_query :=
  { event_subclass := mysql_event_query_subclass_t.MYSQL_AUDIT_QUERY_START
    sql_command_id := cmd }

/-- The invocation gets past the four early returns of `mysqldays_notify`
(lines 165-185) and reaches the table walk: the plugin is enabled, the event is
not skipped, the statement has lexical information and a non-empty table
list. -/
def reaches_walk (i : Invocation) : Bool :=
  i.plugin_enabled &&
  !(should_skip_event i.event_class i.event []).skip &&
  (match i.thd.lex with
   | none => false
   | some lex => !lex.query_tables.isEmpty)

/-- A view reference with the given name. -/
def viewRef (name : String) : Table_ref :=
  { is_base_table := false, is_view := true, table_name := some name }

/-- The elapsed times measured by the invocations of the sequence that reach
the table walk, in order. -/
def measured_times (invs : List Invocation) : List Nat :=
  (invs.filter reaches_walk).map (fun i => elapsed_us i.start_us i.end_us)

/-- A sequence of four invocations: a SELECT over "orders" timed from 100 to
130, the same with the plugin disabled, a SELECT without tables, and a SELECT
over "special_table" timed from 7 to 12. -/
def timedInvocations : List Invocation :=
  [ { selectOver [baseTable "orders"] with start_us := 100, end_us := 130 }
  , { selectOver [baseTable "orders"] with
      plugin_enabled := false, start_us := 200, end_us := 900 }
  , { selectOver [] with start_us := 300, end_us := 350 }
  , { selectOver [baseTable "special_table"] with start_us := 7, end_us := 12 } ]

/-- A table list with two counted references (a base table and a view named
"special_table") and four that are not counted: a derived table of that name,
a base table named "Special_Table", a base table with an empty name and a base
table without a name. -/
def mixedTables : List Table_ref :=
  [ baseTable "special_table"
  , derivedTable "special_table"
  , baseTable "Special_Table"
  , viewRef "special_table"
  , baseTable ""
  , { is_base_table := true, is_view := false, table_name := none } ]

/-! ## Concurrent invocations -/

/-- The atomic read-modify-write operations of `mysqldays_notify` on the shared
counters: the `__atomic_fetch_add` calls at lines 190, 210 and 218. -/
inductive AtomicOp where
  | add_total_queries
  | add_total_special_queries
  | add_total_time_us (elapsed : Nat)
  deriving DecidableEq, Repr

/-- The effect of one atomic operation on the shared state. -/
def apply_op (st : PluginState) : AtomicOp → PluginState
  | AtomicOp.add_total_queries =>
    { st with status_total_queries := atomic_fetch_add st.status_total_queries 1 }
  | AtomicOp.add_total_special_queries =>
    { st with
      status_total_special_queries := atomic_fetch_add st.status_total_special_queries 1 }
  | AtomicOp.add_total_time_us elapsed =>
    { st with status_total_time_us := atomic_fetch_add st.status_total_time_us elapsed }

/-- The atomic operations issued by the body of the `for` loop (lines 201-213)
for one table reference. -/
def table_ops (this_table : Table_ref) : List AtomicOp :=
  if !this_table.is_base_table && !this_table.is_view then
    []
  else
    match this_table.table_name with
    | none => []
    | some name =>
      if name ≠ "" then
        if name = "special_table" then [AtomicOp.add_total_special_queries] else []
      else []

/-- The atomic operations issued by the `for` loop, in program order. -/
def walk_ops : List Table_ref → List AtomicOp
  | [] => []
  | this_table :: next_global => table_ops this_table ++ walk_ops next_global

/-- The atomic operations one invocation of `mysqldays_notify` issues on the
shared counters, in program order: none on the four early returns, otherwise
the increment of `status_total_queries`, the increments of the walk and the
addition of the elapsed time. -/
def notify_ops (i : Invocation) : List AtomicOp :=
  if !i.plugin_enabled then
    []
  else if (should_skip_event i.event_class i.event []).skip then
    []
  else
    match i.thd.lex with
    | none => []
    | some lex =>
      match lex.query_tables with
      | [] => []
      | query_tables@(_ :: _) =>
        AtomicOp.add_total_queries ::
          (walk_ops query_tables
            ++ [AtomicOp.add_total_time_us (elapsed_us i.start_us i.end_us)])

/-- A configuration of a concurrent execution: for each thread the operations
it has still to issue, and the shared state. -/
structure Config where
  pending : List (List AtomicOp)
  shared : PluginState
  deriving DecidableEq, Repr

/-- One scheduling step: thread `k` issues its next operation, atomically.
Choosing a thread that has finished, or an index that is no thread, changes
nothing. -/
def sched_step (c : Config) (k : Nat) : Config :=
  match c.pending[k]? with
  | some (op :: rest) => { pending := c.pending.set k rest, shared := apply_op c.shared op }
  | _ => c

/-- The configuration after a schedule: the threads chosen, in order. -/
def run_schedule (c : Config) (schedule : List Nat) : Config :=
  schedule.foldl sched_step c

/-- Every thread has issued all its operations. -/
def finished (c : Config) : Bool :=
  c.pending.all List.isEmpty

/-- The start of a concurrent execution of the given invocations on the shared
state `st`. -/
def concurrent_start (invs : List Invocation) (st : PluginState) : Config :=
  { pending := invs.map notify_ops, shared := st }

/-- The operation increments `status_total_queries`. -/
def is_add_queries : AtomicOp → Bool
  | AtomicOp.add_total_queries => true
  | _ => false

/-- Number of increments of `status_total_queries` the threads have still to
issue. -/
def pending_queries (pending : List (List AtomicOp)) : Nat :=
  (pending.map (List.countP is_add_queries)).sum

/-- Three concurrent invocations that reach the walk: a SELECT naming
"special_table" twice, a SELECT over "orders" and a SELECT over
"special_table". -/
def concurrentInvocations : List Invocation :=
  [ selectOver [baseTable "special_table", baseTable "special_table"]
  , { selectOver [baseTable "orders"] with start_us := 3, end_us := 8 }
  , { selectOver [baseTable "special_table"] with start_us := 4, end_us := 6 } ]

/-- A schedule that interleaves the operations of the three threads of
`concurrentInvocations` and runs them all to completion. -/
def interleavedSchedule : List Nat :=
  [2, 0, 1, 0, 2, 1, 0, 2, 0]

end MysqlDays

namespace MysqlDays

/-! ## Branches of the callback -/

theorem notify_disabled (thd : THD) (ec : mysql_event_class_t) (ev : mysql_event_query)
    (s e : Nat) (st : PluginState) :
    mysqldays_notify false thd ec ev s e st = (0, st) := by
  simp [mysqldays_notify]

theorem notify_skipped (thd : THD) (ec : mysql_event_class_t) (ev : mysql_event_query)
    (s e : Nat) (st : PluginState) (hskip : (should_skip_event ec ev st.log).skip = true) :
    mysqldays_notify true thd ec ev s e st
      = (0, { st with log := (should_skip_event ec ev st.log).log }) := by
  simp [mysqldays_notify, hskip]

theorem accepted_log (ec : mysql_event_class_t) (ev : mysql_event_query)
    (log : List LogEntry) (hacc : (should_skip_event ec ev log).skip = false) :
    (should_skip_event ec ev log).log = log := by
  unfold should_skip_event at hacc ⊢
  by_cases h1 : ec ≠ mysql_event_class_t.MYSQL_AUDIT_QUERY_CLASS
  · simp [h1] at hacc
  · by_cases h2 : ev.event_subclass ≠ mysql_event_query_subclass_t.MYSQL_AUDIT_QUERY_START
    · simp [h1, h2] at hacc
    · simp only [h1, h2, if_false]
      split <;> rfl

theorem notify_no_lex (thd : THD) (ec : mysql_event_class_t) (ev : mysql_event_query)
    (s e : Nat) (st : PluginState) (hacc : (should_skip_event ec ev st.log).skip = false)
    (hlex : thd.lex = none) :
    mysqldays_notify true thd ec ev s e st
      = (0, { st with
              log := st.log ++ [{ level := plugin_log_level.MY_ERROR_LEVEL
                                  format := "Statement has no lexer information, unable to process it"
                                  arg := none }] }) := by
  simp [mysqldays_notify, hacc, hlex, accepted_log ec ev st.log hacc, my_plugin_log_message]

theorem notify_no_tables (thd : THD) (ec : mysql_event_class_t) (ev : mysql_event_query)
    (s e : Nat) (st : PluginState) (lex : LEX)
    (hacc : (should_skip_event ec ev st.log).skip = false)
    (hlex : thd.lex = some lex) (htab : lex.query_tables = []) :
    mysqldays_notify true thd ec ev s e st = (0, st) := by
  simp [mysqldays_notify, hacc, hlex, htab, accepted_log ec ev st.log hacc]

theorem notify_scan (thd : THD) (ec : mysql_event_class_t) (ev : mysql_event_query)
    (s e : Nat) (st : PluginState) (lex : LEX)
    (hacc : (should_skip_event ec ev st.log).skip = false)
    (hlex : thd.lex = some lex) (htab : lex.query_tables ≠ []) :
    mysqldays_notify true thd ec ev s e st
      = (0, { status_total_queries := (st.status_total_queries + 1) % ULONG_MOD
              status_total_special_queries :=
                scan_tables lex.query_tables st.status_total_special_queries
              status_total_time_us :=
                (st.status_total_time_us + elapsed_us s e) % ULONG_MOD
              log := st.log }) := by
  cases hq : lex.query_tables with
  | nil => exact absurd hq htab
  | cons t l =>
    simp [mysqldays_notify, hacc, hlex, hq, accepted_log ec ev st.log hacc, atomic_fetch_add]

/-! ## The table walk -/

theorem scan_table_eq (special : Nat) (t : Table_ref) :
    scan_table special t
      = if is_special_ref t then (special + 1) % ULONG_MOD else special := by
  obtain ⟨b, v, name⟩ := t
  cases name with
  | none => cases b <;> cases v <;> simp [scan_table, is_special_ref]
  | some n =>
    by_cases hn : n = "special_table"
    · subst hn
      cases b <;> cases v <;> simp [scan_table, is_special_ref, atomic_fetch_add]
    · cases b <;> cases v <;> simp [scan_table, is_special_ref, hn]

theorem scan_tables_eq (l : List Table_ref) (special : Nat) :
    scan_tables l special
      = if l.countP is_special_ref = 0 then special
        else (special + l.countP is_special_ref) % ULONG_MOD := by
  induction l generalizing special with
  | nil => simp [scan_tables]
  | cons t l ih =>
    rw [scan_tables, ih, scan_table_eq]
    by_cases ht : is_special_ref t = true
    · have hc : (t :: l).countP is_special_ref = l.countP is_special_ref + 1 := by
        simp [List.countP_cons, ht]
      rw [hc]
      simp only [ht, if_true]
      by_cases h0 : l.countP is_special_ref = 0
      · simp [h0]
      · simp only [h0, if_false, Nat.succ_ne_zero]
        rw [Nat.mod_add_mod]
        congr 1
        omega
    · have hc : (t :: l).countP is_special_ref = l.countP is_special_ref := by
        simp [List.countP_cons, ht]
      rw [hc]
      simp [ht]

theorem countP_special_eq_zero (l : List Table_ref)
    (h : ∀ r ∈ l, r.table_name ≠ some "special_table") :
    l.countP is_special_ref = 0 := by
  rw [List.countP_eq_zero]
  intro r hr
  simp [is_special_ref, h r hr]

/-! ## Sequences of invocations -/

theorem step_queries_special (st : PluginState) (i : Invocation) :
    ((step st i).status_total_queries = st.status_total_queries ∧
      (step st i).status_total_special_queries = st.status_total_special_queries) ∨
    (∃ lex, i.thd.lex = some lex ∧
      (step st i).status_total_queries = (st.status_total_queries + 1) % ULONG_MOD ∧
      (step st i).status_total_special_queries
        = scan_tables lex.query_tables st.status_total_special_queries) := by
  obtain ⟨en, thd, ec, ev, s, e⟩ := i
  cases en with
  | false => left; simp [step, notify_disabled]
  | true =>
    cases hskip : (should_skip_event ec ev st.log).skip with
    | true => left; simp [step, notify_skipped thd ec ev s e st hskip]
    | false =>
      cases hlex : thd.lex with
      | none => left; simp [step, notify_no_lex thd ec ev s e st hskip hlex]
      | some lex =>
        by_cases htab : lex.query_tables = []
        · left; simp [step, notify_no_tables thd ec ev s e st lex hskip hlex htab]
        · right
          exact ⟨lex, rfl, by simp [step, notify_scan thd ec ev s e st lex hskip hlex htab]⟩

theorem step_preserves_order (st : PluginState) (i : Invocation) (n : Nat)
    (hone : ∀ lex, i.thd.lex = some lex → lex.query_tables.countP is_special_ref ≤ 1)
    (hle : st.status_total_special_queries ≤ st.status_total_queries)
    (hn : st.status_total_queries ≤ n) (hbound : n + 1 < ULONG_MOD) :
    (step st i).status_total_special_queries ≤ (step st i).status_total_queries ∧
      (step st i).status_total_queries ≤ n + 1 := by
  rcases step_queries_special st i with ⟨hq, hs⟩ | ⟨lex, hlex, hq, hs⟩
  · rw [hq, hs]; exact ⟨hle, by omega⟩
  · have hc := hone lex hlex
    rw [hq, hs, scan_tables_eq]
    have hq1 : (st.status_total_queries + 1) % ULONG_MOD = st.status_total_queries + 1 :=
      Nat.mod_eq_of_lt (by omega)
    rw [hq1]
    by_cases h0 : lex.query_tables.countP is_special_ref = 0
    · simp only [h0, if_true]; omega
    · have h1 : lex.query_tables.countP is_special_ref = 1 := by omega
      simp only [h1, if_false, Nat.succ_ne_zero]
      have hs1 : (st.status_total_special_queries + 1) % ULONG_MOD
          = st.status_total_special_queries + 1 := Nat.mod_eq_of_lt (by omega)
      rw [hs1]; omega

theorem run_preserves_order (invs : List Invocation) (st : PluginState) (n : Nat)
    (hone : AtMostOneSpecial invs)
    (hle : st.status_total_special_queries ≤ st.status_total_queries)
    (hn : st.status_total_queries ≤ n) (hbound : n + invs.length < ULONG_MOD) :
    (run st invs).status_total_special_queries ≤ (run st invs).status_total_queries := by
  induction invs generalizing st n with
  | nil => simpa [run] using hle
  | cons i rest ih =>
    have hi := step_preserves_order st i n (fun lex h => hone i (List.mem_cons_self _ _) lex h)
      hle hn (by simp only [List.length_cons] at hbound; omega)
    have hrest : AtMostOneSpecial rest := fun j hj => hone j (List.mem_cons_of_mem _ hj)
    have := ih (step st i) (n + 1) hrest hi.1 hi.2
      (by simp only [List.length_cons] at hbound; omega)
    simpa [run] using this

/-! ## Claims -/

/-- C1: the filter does not accept all fourteen commands of its documentation:
a query-start event of the query class carrying PREPARE, EXECUTE,
BINLOG_BASE64_EVENT, CREATE_SRS or DROP_SRS is skipped (the function returns
true), whatever the log. -/
theorem should_skip_event_skips_documented (log : List LogEntry) :
    (should_skip_event mysql_event_class_t.MYSQL_AUDIT_QUERY_CLASS
      { event_subclass := mysql_event_query_subclass_t.MYSQL_AUDIT_QUERY_START
        sql_command_id := enum_sql_command.SQLCOM_PREPARE } log).skip = true ∧
    (should_skip_event mysql_event_class_t.MYSQL_AUDIT_QUERY_CLASS
      { event_subclass := mysql_event_query_subclass_t.MYSQL_AUDIT_QUERY_START
        sql_command_id := enum_sql_command.SQLCOM_EXECUTE } log).skip = true ∧
    (should_skip_event mysql_event_class_t.MYSQL_AUDIT_QUERY_CLASS
      { event_subclass := mysql_event_query_subclass_t.MYSQL_AUDIT_QUERY_START
        sql_command_id := enum_sql_command.SQLCOM_BINLOG_BASE64_EVENT } log).skip = true ∧
    (should_skip_event mysql_event_class_t.MYSQL_AUDIT_QUERY_CLASS
      { event_subclass := mysql_event_query_subclass_t.MYSQL_AUDIT_QUERY_START
        sql_command_id := enum_sql_command.SQLCOM_CREATE_SRS } log).skip = true ∧
    (should_skip_event mysql_event_class_t.MYSQL_AUDIT_QUERY_CLASS
      { event_subclass := mysql_event_query_subclass_t.MYSQL_AUDIT_QUERY_START
        sql_command_id := enum_sql_command.SQLCOM_DROP_SRS } log).skip = true := by
  refine ⟨rfl, rfl, rfl, rfl, rfl⟩

/-- C2, as stated, fails: starting from all-zero counters, one enabled SELECT
whose table list references the base table "special_table" twice leaves
`total_queries = 1` and `total_special_queries = 2`. -/
theorem counter_order_fails_on_self_join :
    (run PluginState.init
        [selectOver [baseTable "special_table", baseTable "special_table"]]).status_total_queries = 1 ∧
    (run PluginState.init
        [selectOver [baseTable "special_table", baseTable "special_table"]]).status_total_special_queries = 2 ∧
    ¬ ((run PluginState.init
        [selectOver [baseTable "special_table", baseTable "special_table"]]).status_total_queries
      ≥ (run PluginState.init
        [selectOver [baseTable "special_table", baseTable "special_table"]]).status_total_special_queries) := by
  decide

/-- C2, amended: in every state reached from all-zero counters by a sequence of
fewer than `2^64` invocations (any events, contexts and enabled flags) in which
every statement references the designated table, as base table or view, at most
once, `total_queries ≥ total_special_queries`. -/
theorem counter_order_at_most_one_special (invs : List Invocation)
    (hone : AtMostOneSpecial invs) (hlen : invs.length < ULONG_MOD) :
    (run PluginState.init invs).status_total_queries
      ≥ (run PluginState.init invs).status_total_special_queries :=
  run_preserves_order invs PluginState.init 0 hone (Nat.le_refl _) (Nat.le_refl _)
    (by simpa using hlen)

/-- Witness for C2 (amended): a single SELECT over "special_table" and
"other_table". -/
theorem counter_order_at_most_one_special_witness :
    AtMostOneSpecial [selectOver [baseTable "special_table", baseTable "other_table"]] ∧
    [selectOver [baseTable "special_table", baseTable "other_table"]].length < ULONG_MOD ∧
    (run PluginState.init
        [selectOver [baseTable "special_table", baseTable "other_table"]]).status_total_queries
      ≥ (run PluginState.init
        [selectOver [baseTable "special_table", baseTable "other_table"]]).status_total_special_queries :=
  have hone : AtMostOneSpecial
      [selectOver [baseTable "special_table", baseTable "other_table"]] := by
    intro i hi lex hlex
    rw [List.mem_singleton] at hi
    subst hi
    simp only [selectOver, thdWithTables, Option.some.injEq] at hlex
    subst hlex
    decide
  have hlen : [selectOver [baseTable "special_table", baseTable "other_table"]].length
      < ULONG_MOD := by decide
  ⟨hone, hlen, counter_order_at_most_one_special _ hone hlen⟩

/-- C3: with the enabled flag false, `mysqldays_notify` leaves
`total_queries`, `total_special_queries` and `total_time_us` as they were, for
every event, statement context and clock readings. -/
theorem disabled_leaves_counters (thd : THD) (ec : mysql_event_class_t)
    (ev : mysql_event_query) (s e : Nat) (st : PluginState) :
    (mysqldays_notify false thd ec ev s e st).2.status_total_queries
        = st.status_total_queries ∧
    (mysqldays_notify false thd ec ev s e st).2.status_total_special_queries
        = st.status_total_special_queries ∧
    (mysqldays_notify false thd ec ev s e st).2.status_total_time_us
        = st.status_total_time_us := by
  rw [notify_disabled]
  exact ⟨rfl, rfl, rfl⟩

/-- C4: an event whose class is not the query class is skipped by
`should_skip_event` whatever its payload, and `mysqldays_notify` does not reach
the table walk: the three counters are unchanged and the outcome does not
depend on the statement context or the clock. -/
theorem non_query_class_skipped (ec : mysql_event_class_t)
    (hclass : ec ≠ mysql_event_class_t.MYSQL_AUDIT_QUERY_CLASS)
    (ev : mysql_event_query) (log : List LogEntry) (enabled : Bool) (thd thd2 : THD)
    (s e s2 e2 : Nat) (st : PluginState) :
    (should_skip_event ec ev log).skip = true ∧
    (mysqldays_notify enabled thd ec ev s e st).2.status_total_queries
        = st.status_total_queries ∧
    (mysqldays_notify enabled thd ec ev s e st).2.status_total_special_queries
        = st.status_total_special_queries ∧
    (mysqldays_notify enabled thd ec ev s e st).2.status_total_time_us
        = st.status_total_time_us ∧
    mysqldays_notify enabled thd ec ev s e st
        = mysqldays_notify enabled thd2 ec ev s2 e2 st := by
  have hskip : ∀ l, (should_skip_event ec ev l).skip = true := by
    intro l
    simp [should_skip_event, hclass]
  refine ⟨hskip log, ?_⟩
  cases enabled with
  | false => simp [notify_disabled]
  | true => simp [notify_skipped _ ec ev _ _ st (hskip st.log)]

/-- Witness for C4: an event of the general class carrying a SELECT. -/
theorem non_query_class_skipped_witness :
    mysql_event_class_t.MYSQL_AUDIT_GENERAL_CLASS ≠ mysql_event_class_t.MYSQL_AUDIT_QUERY_CLASS ∧
    (should_skip_event mysql_event_class_t.MYSQL_AUDIT_GENERAL_CLASS selectStart []).skip = true ∧
    (mysqldays_notify true (thdWithTables [baseTable "special_table"])
        mysql_event_class_t.MYSQL_AUDIT_GENERAL_CLASS selectStart 0 5
        PluginState.init).2.status_total_queries = 0 :=
  have h := non_query_class_skipped mysql_event_class_t.MYSQL_AUDIT_GENERAL_CLASS
    (by decide) selectStart [] true (thdWithTables [baseTable "special_table"]) thdNoLex
    0 5 0 0 PluginState.init
  ⟨by decide, h.1, h.2.1⟩

/-- C5, as stated, fails: an enabled, accepted SELECT whose statement has
lexical information and an empty table list leaves `total_queries` at 0; it
does not become 1. -/
theorem empty_table_list_not_counted :
    (should_skip_event mysql_event_class_t.MYSQL_AUDIT_QUERY_CLASS selectStart
        PluginState.init.log).skip = false ∧
    (mysqldays_notify true (thdWithTables []) mysql_event_class_t.MYSQL_AUDIT_QUERY_CLASS
        selectStart 0 0 PluginState.init).2.status_total_queries = 0 ∧
    ¬ ((mysqldays_notify true (thdWithTables []) mysql_event_class_t.MYSQL_AUDIT_QUERY_CLASS
        selectStart 0 0 PluginState.init).2.status_total_queries
      = PluginState.init.status_total_queries + 1) := by
  decide

/-- C5, amended: for every accepted event processed with the plugin enabled and
lexical information present, if the table list is empty then `total_queries`
and `total_special_queries` are both unchanged. -/
theorem empty_table_list_queries_unchanged (thd : THD) (ec : mysql_event_class_t)
    (ev : mysql_event_query) (s e : Nat) (st : PluginState) (lex : LEX)
    (hacc : (should_skip_event ec ev st.log).skip = false)
    (hlex : thd.lex = some lex) (htab : lex.query_tables = []) :
    (mysqldays_notify true thd ec ev s e st).2.status_total_queries
        = st.status_total_queries ∧
    (mysqldays_notify true thd ec ev s e st).2.status_total_special_queries
        = st.status_total_special_queries := by
  rw [notify_no_tables thd ec ev s e st lex hacc hlex htab]
  exact ⟨rfl, rfl⟩

/-- Witness for C5 (amended): a SELECT without tables, counters at 7 and 3. -/
theorem empty_table_list_queries_unchanged_witness :
    (mysqldays_notify true (thdWithTables []) mysql_event_class_t.MYSQL_AUDIT_QUERY_CLASS
        selectStart 10 25
        { status_total_queries := 7, status_total_special_queries := 3
          status_total_time_us := 40, log := [] }).2.status_total_queries = 7 ∧
    (mysqldays_notify true (thdWithTables []) mysql_event_class_t.MYSQL_AUDIT_QUERY_CLASS
        selectStart 10 25
        { status_total_queries := 7, status_total_special_queries := 3
          status_total_time_us := 40, log := [] }).2.status_total_special_queries = 3 :=
  empty_table_list_queries_unchanged (thdWithTables [])
    mysql_event_class_t.MYSQL_AUDIT_QUERY_CLASS selectStart 10 25
    { status_total_queries := 7, status_total_special_queries := 3
      status_total_time_us := 40, log := [] }
    { query_tables := [] } (by decide) rfl rfl

/-- C6: for every accepted event processed with the plugin enabled and lexical
information present, if the table list is empty then `mysqldays_notify` updates
none of the three counters and writes nothing to the log. -/
theorem empty_table_list_silent (thd : THD) (ec : mysql_event_class_t)
    (ev : mysql_event_query) (s e : Nat) (st : PluginState) (lex : LEX)
    (hacc : (should_skip_event ec ev st.log).skip = false)
    (hlex : thd.lex = some lex) (htab : lex.query_tables = []) :
    (mysqldays_notify true thd ec ev s e st).2.status_total_queries
        = st.status_total_queries ∧
    (mysqldays_notify true thd ec ev s e st).2.status_total_special_queries
        = st.status_total_special_queries ∧
    (mysqldays_notify true thd ec ev s e st).2.status_total_time_us
        = st.status_total_time_us ∧
    (mysqldays_notify true thd ec ev s e st).2.log = st.log := by
  rw [notify_no_tables thd ec ev s e st lex hacc hlex htab]
  exact ⟨rfl, rfl, rfl, rfl⟩

/-- Witness for C6: an INSERT without tables, after one earlier log line. -/
theorem empty_table_list_silent_witness :
    (mysqldays_notify true (thdWithTables []) mysql_event_class_t.MYSQL_AUDIT_QUERY_CLASS
        { event_subclass := mysql_event_query_subclass_t.MYSQL_AUDIT_QUERY_START
          sql_command_id := enum_sql_command.SQLCOM_INSERT } 3 9
        { status_total_queries := 2, status_total_special_queries := 1
          status_total_time_us := 11
          log := [{ level := plugin_log_level.MY_INFORMATION_LEVEL
                    format := "Plugin init", arg := none }] }).2.status_total_time_us = 11 ∧
    (mysqldays_notify true (thdWithTables []) mysql_event_class_t.MYSQL_AUDIT_QUERY_CLASS
        { event_subclass := mysql_event_query_subclass_t.MYSQL_AUDIT_QUERY_START
          sql_command_id := enum_sql_command.SQLCOM_INSERT } 3 9
        { status_total_queries := 2, status_total_special_queries := 1
          status_total_time_us := 11
          log := [{ level := plugin_log_level.MY_INFORMATION_LEVEL
                    format := "Plugin init", arg := none }] }).2.log
      = [{ level := plugin_log_level.MY_INFORMATION_LEVEL
           format := "Plugin init", arg := none }] :=
  have h := empty_table_list_silent (thdWithTables [])
    mysql_event_class_t.MYSQL_AUDIT_QUERY_CLASS
    { event_subclass := mysql_event_query_subclass_t.MYSQL_AUDIT_QUERY_START
      sql_command_id := enum_sql_command.SQLCOM_INSERT } 3 9
    { status_total_queries := 2, status_total_special_queries := 1
      status_total_time_us := 11
      log := [{ level := plugin_log_level.MY_INFORMATION_LEVEL
                format := "Plugin init", arg := none }] }
    { query_tables := [] } (by decide) rfl rfl
  ⟨h.2.2.1, h.2.2.2⟩

/-- C7: for every accepted event processed with the plugin enabled and lexical
information present, if the table list holds one base-table reference named
"special_table" and every other reference (any number, of any kind) has another
name, then `total_queries` and `total_special_queries` are each incremented by
exactly 1 (the `unsigned long` fetch-and-add of 1: plain `+ 1` below the
maximum). -/
theorem one_special_table_counted_once (thd : THD) (ec : mysql_event_class_t)
    (ev : mysql_event_query) (s e : Nat) (st : PluginState) (lex : LEX)
    (before after : List Table_ref) (t : Table_ref)
    (hacc : (should_skip_event ec ev st.log).skip = false)
    (hlex : thd.lex = some lex)
    (htab : lex.query_tables = before ++ t :: after)
    (hbase : t.is_base_table = true)
    (hname : t.table_name = some "special_table")
    (hothers : ∀ r ∈ before ++ after, r.table_name ≠ some "special_table") :
    (mysqldays_notify true thd ec ev s e st).2.status_total_queries
        = (st.status_total_queries + 1) % 2 ^ 64 ∧
    (mysqldays_notify true thd ec ev s e st).2.status_total_special_queries
        = (st.status_total_special_queries + 1) % 2 ^ 64 ∧
    (st.status_total_queries + 1 < 2 ^ 64 →
      (mysqldays_notify true thd ec ev s e st).2.status_total_queries
        = st.status_total_queries + 1) ∧
    (st.status_total_special_queries + 1 < 2 ^ 64 →
      (mysqldays_notify true thd ec ev s e st).2.status_total_special_queries
        = st.status_total_special_queries + 1) := by
  have hne : lex.query_tables ≠ [] := by simp [htab]
  have hcount : lex.query_tables.countP is_special_ref = 1 := by
    have hb := countP_special_eq_zero before
      (fun r hr => hothers r (List.mem_append_left _ hr))
    have ha := countP_special_eq_zero after
      (fun r hr => hothers r (List.mem_append_right _ hr))
    have ht : is_special_ref t = true := by simp [is_special_ref, hbase, hname]
    rw [htab, List.countP_append, List.countP_cons, hb, ha]
    simp [ht]
  rw [notify_scan thd ec ev s e st lex hacc hlex hne, scan_tables_eq, hcount]
  rw [if_neg one_ne_zero]
  exact ⟨rfl, rfl, fun h => Nat.mod_eq_of_lt h, fun h => Nat.mod_eq_of_lt h⟩

/-- Witness for C7: a SELECT over the base tables "special_table" and
"other_table", from all-zero counters. -/
theorem one_special_table_counted_once_witness :
    (mysqldays_notify true (thdWithTables [baseTable "special_table", baseTable "other_table"])
        mysql_event_class_t.MYSQL_AUDIT_QUERY_CLASS selectStart 100 130
        PluginState.init).2.status_total_queries
      = PluginState.init.status_total_queries + 1 ∧
    (mysqldays_notify true (thdWithTables [baseTable "special_table", baseTable "other_table"])
        mysql_event_class_t.MYSQL_AUDIT_QUERY_CLASS selectStart 100 130
        PluginState.init).2.status_total_special_queries
      = PluginState.init.status_total_special_queries + 1 :=
  have h := one_special_table_counted_once
    (thdWithTables [baseTable "special_table", baseTable "other_table"])
    mysql_event_class_t.MYSQL_AUDIT_QUERY_CLASS selectStart 100 130 PluginState.init
    { query_tables := [baseTable "special_table", baseTable "other_table"] }
    [] [baseTable "other_table"] (baseTable "special_table")
    (by decide) rfl rfl rfl rfl (by decide)
  ⟨h.2.2.1 (by decide), h.2.2.2 (by decide)⟩

/-- C8: for every accepted event processed with the plugin enabled, if the
table list holds a reference named "special_table" that is neither a base table
nor a view, and no base-table or view reference named "special_table", then
`total_special_queries` is unchanged. -/
theorem other_kind_not_counted (thd : THD) (ec : mysql_event_class_t)
    (ev : mysql_event_query) (s e : Nat) (st : PluginState) (lex : LEX)
    (hacc : (should_skip_event ec ev st.log).skip = false)
    (hlex : thd.lex = some lex)
    (hother : ∃ r ∈ lex.query_tables, r.table_name = some "special_table" ∧
      r.is_base_table = false ∧ r.is_view = false)
    (hnone : ∀ r ∈ lex.query_tables, r.is_base_table = true ∨ r.is_view = true →
      r.table_name ≠ some "special_table") :
    (mysqldays_notify true thd ec ev s e st).2.status_total_special_queries
      = st.status_total_special_queries := by
  have hne : lex.query_tables ≠ [] := by
    obtain ⟨r, hr, _⟩ := hother
    exact List.ne_nil_of_mem hr
  have hcount : lex.query_tables.countP is_special_ref = 0 := by
    rw [List.countP_eq_zero]
    intro r hr
    have := hnone r hr
    cases hb : r.is_base_table <;> cases hv : r.is_view <;>
      simp_all [is_special_ref]
  rw [notify_scan thd ec ev s e st lex hacc hlex hne, scan_tables_eq, hcount]
  simp

/-- Witness for C8: an UPDATE over a derived table named "special_table" and
the base table "orders", with `total_special_queries` at 4. -/
theorem other_kind_not_counted_witness :
    (mysqldays_notify true (thdWithTables [derivedTable "special_table", baseTable "orders"])
        mysql_event_class_t.MYSQL_AUDIT_QUERY_CLASS
        { event_subclass := mysql_event_query_subclass_t.MYSQL_AUDIT_QUERY_START
          sql_command_id := enum_sql_command.SQLCOM_UPDATE } 8 20
        { status_total_queries := 9, status_total_special_queries := 4
          status_total_time_us := 77, log := [] }).2.status_total_special_queries = 4 :=
  other_kind_not_counted (thdWithTables [derivedTable "special_table", baseTable "orders"])
    mysql_event_class_t.MYSQL_AUDIT_QUERY_CLASS
    { event_subclass := mysql_event_query_subclass_t.MYSQL_AUDIT_QUERY_START
      sql_command_id := enum_sql_command.SQLCOM_UPDATE } 8 20
    { status_total_queries := 9, status_total_special_queries := 4
      status_total_time_us := 77, log := [] }
    { query_tables := [derivedTable "special_table", baseTable "orders"] }
    (by decide) rfl (by decide) (by decide)

/-- C9: for every accepted event processed with the plugin enabled, if the
statement context has no lexical information then `mysqldays_notify` appends
exactly one entry to the log, of error level, and leaves the three counters
unchanged. -/
theorem no_lex_logs_one_error (thd : THD) (ec : mysql_event_class_t)
    (ev : mysql_event_query) (s e : Nat) (st : PluginState)
    (hacc : (should_skip_event ec ev st.log).skip = false)
    (hlex : thd.lex = none) :
    (∃ entry : LogEntry, entry.level = plugin_log_level.MY_ERROR_LEVEL ∧
      (mysqldays_notify true thd ec ev s e st).2.log = st.log ++ [entry]) ∧
    (mysqldays_notify true thd ec ev s e st).2.status_total_queries
        = st.status_total_queries ∧
    (mysqldays_notify true thd ec ev s e st).2.status_total_special_queries
        = st.status_total_special_queries ∧
    (mysqldays_notify true thd ec ev s e st).2.status_total_time_us
        = st.status_total_time_us := by
  rw [notify_no_lex thd ec ev s e st hacc hlex]
  exact ⟨⟨_, rfl, rfl⟩, rfl, rfl, rfl⟩

/-- Witness for C9: a SELECT on a connection without lexical information. -/
theorem no_lex_logs_one_error_witness :
    (should_skip_event mysql_event_class_t.MYSQL_AUDIT_QUERY_CLASS selectStart []).skip = false ∧
    (mysqldays_notify true thdNoLex mysql_event_class_t.MYSQL_AUDIT_QUERY_CLASS
        selectStart 1 2 PluginState.init).2.status_total_queries = 0 ∧
    (mysqldays_notify true thdNoLex mysql_event_class_t.MYSQL_AUDIT_QUERY_CLASS
        selectStart 1 2 PluginState.init).2.status_total_special_queries = 0 ∧
    (mysqldays_notify true thdNoLex mysql_event_class_t.MYSQL_AUDIT_QUERY_CLASS
        selectStart 1 2 PluginState.init).2.status_total_time_us = 0 :=
  ⟨by decide,
    (no_lex_logs_one_error thdNoLex mysql_event_class_t.MYSQL_AUDIT_QUERY_CLASS
      selectStart 1 2 PluginState.init (by decide) rfl).2⟩

/-- C10: `mysqldays_notify` returns status 0 for every enabled flag, event
(any class, subclass and command), statement context, clock readings and
state; no path returns another status. -/
theorem notify_returns_zero (enabled : Bool) (thd : THD) (ec : mysql_event_class_t)
    (ev : mysql_event_query) (s e : Nat) (st : PluginState) :
    (mysqldays_notify enabled thd ec ev s e st).1 = 0 := by
  cases enabled with
  | false => rw [notify_disabled]
  | true =>
    cases hskip : (should_skip_event ec ev st.log).skip with
    | true => rw [notify_skipped thd ec ev s e st hskip]
    | false =>
      cases hlex : thd.lex with
      | none => rw [notify_no_lex thd ec ev s e st hskip hlex]
      | some lex =>
        by_cases htab : lex.query_tables = []
        · rw [notify_no_tables thd ec ev s e st lex hskip hlex htab]
        · rw [notify_scan thd ec ev s e st lex hskip hlex htab]

/-- C11, as stated, fails: a query-start event of the query class carrying
DELETE_MULTI, or UPDATE_MULTI, is accepted (the function returns false). -/
theorem multi_table_commands_accepted :
    (should_skip_event mysql_event_class_t.MYSQL_AUDIT_QUERY_CLASS
      (queryStart enum_sql_command.SQLCOM_DELETE_MULTI) []).skip = false ∧
    (should_skip_event mysql_event_class_t.MYSQL_AUDIT_QUERY_CLASS
      (queryStart enum_sql_command.SQLCOM_UPDATE_MULTI) []).skip = false := by
  decide

/-- C11, amended: for every query-start event of the query class,
`should_skip_event` accepts it if and only if its command is one of the nine
commands SELECT, INSERT, UPDATE, INSERT_SELECT, DELETE, TRUNCATE, DELETE_MULTI,
UPDATE_MULTI, IMPORT; in particular PREPARE, EXECUTE, BINLOG_BASE64_EVENT,
CREATE_SRS and DROP_SRS are rejected. -/
theorem accepted_iff_switch_command (cmd : enum_sql_command) (log : List LogEntry) :
    ((should_skip_event mysql_event_class_t.MYSQL_AUDIT_QUERY_CLASS
        (queryStart cmd) log).skip = false ↔
      cmd = enum_sql_command.SQLCOM_SELECT ∨ cmd = enum_sql_command.SQLCOM_INSERT ∨
      cmd = enum_sql_command.SQLCOM_UPDATE ∨ cmd = enum_sql_command.SQLCOM_INSERT_SELECT ∨
      cmd = enum_sql_command.SQLCOM_DELETE ∨ cmd = enum_sql_command.SQLCOM_TRUNCATE ∨
      cmd = enum_sql_command.SQLCOM_DELETE_MULTI ∨ cmd = enum_sql_command.SQLCOM_UPDATE_MULTI ∨
      cmd = enum_sql_command.SQLCOM_IMPORT) ∧
    ((should_skip_event mysql_event_class_t.MYSQL_AUDIT_QUERY_CLASS
        (queryStart cmd) log).skip = false ↔ cmd ∈ switch_commands) ∧
    (cmd ∈ [ enum_sql_command.SQLCOM_PREPARE, enum_sql_command.SQLCOM_EXECUTE
           , enum_sql_command.SQLCOM_BINLOG_BASE64_EVENT
           , enum_sql_command.SQLCOM_CREATE_SRS, enum_sql_command.SQLCOM_DROP_SRS ] →
      (should_skip_event mysql_event_class_t.MYSQL_AUDIT_QUERY_CLASS
        (queryStart cmd) log).skip = true) := by
  cases cmd <;> simp [should_skip_event, queryStart, switch_commands]

/-- Witness for C11 (amended): PREPARE is rejected. -/
theorem accepted_iff_switch_command_witness :
    enum_sql_command.SQLCOM_PREPARE ∈
      [ enum_sql_command.SQLCOM_PREPARE, enum_sql_command.SQLCOM_EXECUTE
      , enum_sql_command.SQLCOM_BINLOG_BASE64_EVENT
      , enum_sql_command.SQLCOM_CREATE_SRS, enum_sql_command.SQLCOM_DROP_SRS ] ∧
    (should_skip_event mysql_event_class_t.MYSQL_AUDIT_QUERY_CLASS
        (queryStart enum_sql_command.SQLCOM_PREPARE) []).skip = true :=
  ⟨by decide,
    (accepted_iff_switch_command enum_sql_command.SQLCOM_PREPARE []).2.2 (by decide)⟩

/-- C13: the outcome of `mysqldays_notify` does not depend on the invoking
principal: two invocations with the same enabled flag, event, lexical
information and table list, clock readings and initial state, whose security
contexts differ in any way (absent, null user, any user string), give the same
return value and the same final state (three counters and log). -/
theorem notify_independent_of_principal (enabled : Bool) (lex : Option LEX)
    (sctx1 sctx2 : Option Security_context) (ec : mysql_event_class_t)
    (ev : mysql_event_query) (s e : Nat) (st : PluginState) :
    mysqldays_notify enabled { lex := lex, security_context := sctx1 } ec ev s e st
      = mysqldays_notify enabled { lex := lex, security_context := sctx2 } ec ev s e st := by
  rfl

/-- C16: `should_skip_event` appends exactly one warning-level entry to the log
and returns true when the class is not the query class or the subclass is not
query-start; for a query-start event of the query class it leaves the log as
it was, whether the command is accepted or not. -/
theorem should_skip_event_diagnostics (ec : mysql_event_class_t)
    (ev : mysql_event_query) (log : List LogEntry) :
    ((ec ≠ mysql_event_class_t.MYSQL_AUDIT_QUERY_CLASS ∨
        ev.event_subclass ≠ mysql_event_query_subclass_t.MYSQL_AUDIT_QUERY_START) →
      (should_skip_event ec ev log).skip = true ∧
      ∃ entry : LogEntry, entry.level = plugin_log_level.MY_WARNING_LEVEL ∧
        (should_skip_event ec ev log).log = log ++ [entry]) ∧
    ((ec = mysql_event_class_t.MYSQL_AUDIT_QUERY_CLASS ∧
        ev.event_subclass = mysql_event_query_subclass_t.MYSQL_AUDIT_QUERY_START) →
      (should_skip_event ec ev log).log = log) := by
  constructor
  · intro h
    by_cases h1 : ec ≠ mysql_event_class_t.MYSQL_AUDIT_QUERY_CLASS
    · unfold should_skip_event
      rw [if_pos h1]
      exact ⟨rfl, _, rfl, rfl⟩
    · have h2 : ev.event_subclass ≠ mysql_event_query_subclass_t.MYSQL_AUDIT_QUERY_START := by
        rcases h with h | h
        · exact absurd h h1
        · exact h
      unfold should_skip_event
      rw [if_neg h1, if_pos h2]
      exact ⟨rfl, _, rfl, rfl⟩
  · rintro ⟨h1, h2⟩
    unfold should_skip_event
    rw [if_neg (not_not.mpr h1), if_neg (not_not.mpr h2)]
    split <;> rfl

/-- Witness for C16: an event of the connection class logs one warning; a
query-status-end event of the query class logs one warning. -/
theorem should_skip_event_diagnostics_witness :
    ((should_skip_event mysql_event_class_t.MYSQL_AUDIT_CONNECTION_CLASS selectStart []).skip = true ∧
      ∃ entry : LogEntry, entry.level = plugin_log_level.MY_WARNING_LEVEL ∧
        (should_skip_event mysql_event_class_t.MYSQL_AUDIT_CONNECTION_CLASS selectStart []).log
          = [] ++ [entry]) ∧
    (should_skip_event mysql_event_class_t.MYSQL_AUDIT_QUERY_CLASS
        (queryStart enum_sql_command.SQLCOM_EXECUTE) []).log = [] :=
  ⟨(should_skip_event_diagnostics mysql_event_class_t.MYSQL_AUDIT_CONNECTION_CLASS
      selectStart []).1 (Or.inl (by decide)),
    (should_skip_event_diagnostics mysql_event_class_t.MYSQL_AUDIT_QUERY_CLASS
      (queryStart enum_sql_command.SQLCOM_EXECUTE) []).2 ⟨rfl, rfl⟩⟩

/-- C17: with the enabled flag false, `mysqldays_notify` writes nothing to the
log and leaves the three counters unchanged, for every event (also one of
another class or subclass) and every statement context (also one without
lexical information): the enabled check comes before the filter. -/
theorem disabled_is_silent (thd : THD) (ec : mysql_event_class_t)
    (ev : mysql_event_query) (s e : Nat) (st : PluginState) :
    (mysqldays_notify false thd ec ev s e st).2.log = st.log ∧
    (mysqldays_notify false thd ec ev s e st).2.status_total_queries
        = st.status_total_queries ∧
    (mysqldays_notify false thd ec ev s e st).2.status_total_special_queries
        = st.status_total_special_queries ∧
    (mysqldays_notify false thd ec ev s e st).2.status_total_time_us
        = st.status_total_time_us := by
  rw [notify_disabled]
  exact ⟨rfl, rfl, rfl, rfl⟩

/-! ## Elapsed time over a sequence -/

theorem skip_independent_of_log (ec : mysql_event_class_t) (ev : mysql_event_query)
    (log1 log2 : List LogEntry) :
    (should_skip_event ec ev log1).skip = (should_skip_event ec ev log2).skip := by
  unfold should_skip_event
  by_cases h1 : ec ≠ mysql_event_class_t.MYSQL_AUDIT_QUERY_CLASS
  · rw [if_pos h1, if_pos h1]
  · by_cases h2 : ev.event_subclass ≠ mysql_event_query_subclass_t.MYSQL_AUDIT_QUERY_START
    · rw [if_neg h1, if_neg h1, if_pos h2, if_pos h2]
    · rw [if_neg h1, if_neg h1, if_neg h2, if_neg h2]
      split <;> rfl

theorem step_time (st : PluginState) (i : Invocation) :
    (step st i).status_total_time_us
      = if reaches_walk i = true then
          (st.status_total_time_us + elapsed_us i.start_us i.end_us) % ULONG_MOD
        else st.status_total_time_us := by
  obtain ⟨en, thd, ec, ev, s, e⟩ := i
  cases en with
  | false => simp [step, notify_disabled, reaches_walk]
  | true =>
    have hlog := skip_independent_of_log ec ev st.log []
    cases hskip : (should_skip_event ec ev st.log).skip with
    | true =>
      rw [hskip] at hlog
      simp [step, notify_skipped thd ec ev s e st hskip, reaches_walk, ← hlog]
    | false =>
      rw [hskip] at hlog
      cases hlex : thd.lex with
      | none => simp [step, notify_no_lex thd ec ev s e st hskip hlex, reaches_walk, hlex]
      | some lex =>
        by_cases htab : lex.query_tables = []
        · simp [step, notify_no_tables thd ec ev s e st lex hskip hlex htab, reaches_walk,
            hlex, htab]
        · simp [step, notify_scan thd ec ev s e st lex hskip hlex htab, reaches_walk,
            hlex, htab, ← hlog]

theorem run_time (invs : List Invocation) (st : PluginState)
    (hst : st.status_total_time_us < ULONG_MOD) :
    (run st invs).status_total_time_us
      = (st.status_total_time_us + (measured_times invs).sum) % ULONG_MOD := by
  induction invs generalizing st with
  | nil => simp [run, measured_times, Nat.mod_eq_of_lt hst]
  | cons i rest ih =>
    have hpos : 0 < ULONG_MOD := by decide
    have hrun : run st (i :: rest) = run (step st i) rest := rfl
    by_cases hw : reaches_walk i = true
    · have hs : (step st i).status_total_time_us
          = (st.status_total_time_us + elapsed_us i.start_us i.end_us) % ULONG_MOD := by
        rw [step_time, if_pos hw]
      have hm : measured_times (i :: rest)
          = elapsed_us i.start_us i.end_us :: measured_times rest := by
        simp [measured_times, List.filter_cons, hw]
      rw [hrun, ih (step st i) (by rw [hs]; exact Nat.mod_lt _ hpos), hs, hm,
        List.sum_cons, Nat.mod_add_mod, Nat.add_assoc]
    · have hs : (step st i).status_total_time_us = st.status_total_time_us := by
        rw [step_time, if_neg hw]
      have hm : measured_times (i :: rest) = measured_times rest := by
        simp [measured_times, List.filter_cons, hw]
      rw [hrun, ih (step st i) (by rw [hs]; exact hst), hs, hm]

/-- C12: with the two clock readings of each invocation as inputs, after any
sequence of invocations `total_time_us` is its initial value plus the sum of
`end_i - start_i` over the invocations that reach the table walk, in unsigned
64-bit arithmetic; invocations that return early (disabled, skipped event, no
lexical information, empty table list) add nothing. -/
theorem total_time_is_sum_of_elapsed (invs : List Invocation) (st : PluginState)
    (hst : st.status_total_time_us < 2 ^ 64) :
    (run st invs).status_total_time_us
      = (st.status_total_time_us
          + ((invs.filter reaches_walk).map
              (fun i => (i.end_us % 2 ^ 64 + 2 ^ 64 - i.start_us % 2 ^ 64) % 2 ^ 64)).sum)
        % 2 ^ 64 :=
  run_time invs st hst

/-- Witness for C12: from `total_time_us = 5`, four invocations of which the
first and the last reach the walk, measuring 30 and 5: the total becomes 40. -/
theorem total_time_is_sum_of_elapsed_witness :
    (run { status_total_queries := 0, status_total_special_queries := 0
           status_total_time_us := 5, log := [] } timedInvocations).status_total_time_us
      = 40 :=
  (total_time_is_sum_of_elapsed timedInvocations
    { status_total_queries := 0, status_total_special_queries := 0
      status_total_time_us := 5, log := [] } (by decide)).trans (by decide)

/-- C15: for every invocation that is enabled, accepted by the filter, and has
lexical information and a non-empty table list, `total_queries` is incremented
by exactly 1 and `total_special_queries` by exactly the number of references
that are a base table or a view and are named "special_table" (the
`unsigned long` additions: plain sums below `2^64`); by the definition of
`is_special_ref`, references of other kinds, without a name, with an empty name
or with another name such as "Special_Table" are not counted. -/
theorem scan_adds_number_of_special_refs (thd : THD) (ec : mysql_event_class_t)
    (ev : mysql_event_query) (s e : Nat) (st : PluginState) (lex : LEX)
    (hacc : (should_skip_event ec ev st.log).skip = false)
    (hlex : thd.lex = some lex) (htab : lex.query_tables ≠ [])
    (hsp : st.status_total_special_queries < 2 ^ 64) :
    (mysqldays_notify true thd ec ev s e st).2.status_total_queries
        = (st.status_total_queries + 1) % 2 ^ 64 ∧
    (mysqldays_notify true thd ec ev s e st).2.status_total_special_queries
        = (st.status_total_special_queries
            + lex.query_tables.countP is_special_ref) % 2 ^ 64 ∧
    (st.status_total_queries + 1 < 2 ^ 64 →
      (mysqldays_notify true thd ec ev s e st).2.status_total_queries
        = st.status_total_queries + 1) ∧
    (st.status_total_special_queries + lex.query_tables.countP is_special_ref < 2 ^ 64 →
      (mysqldays_notify true thd ec ev s e st).2.status_total_special_queries
        = st.status_total_special_queries + lex.query_tables.countP is_special_ref) := by
  have hsp2 : (mysqldays_notify true thd ec ev s e st).2.status_total_special_queries
      = (st.status_total_special_queries
          + lex.query_tables.countP is_special_ref) % 2 ^ 64 := by
    rw [notify_scan thd ec ev s e st lex hacc hlex htab]
    show scan_tables lex.query_tables st.status_total_special_queries = _
    rw [scan_tables_eq]
    by_cases h0 : lex.query_tables.countP is_special_ref = 0
    · rw [if_pos h0, h0, Nat.add_zero, Nat.mod_eq_of_lt hsp]
    · rw [if_neg h0]; rfl
  have hq : (mysqldays_notify true thd ec ev s e st).2.status_total_queries
      = (st.status_total_queries + 1) % 2 ^ 64 := by
    rw [notify_scan thd ec ev s e st lex hacc hlex htab]; rfl
  refine ⟨hq, hsp2, fun h => ?_, fun h => ?_⟩
  · rw [hq, Nat.mod_eq_of_lt h]
  · rw [hsp2, Nat.mod_eq_of_lt h]

/-- Witness for C15: a DELETE over `mixedTables`, from `total_queries = 5` and
`total_special_queries = 2`: they become 6 and 4. -/
theorem scan_adds_number_of_special_refs_witness :
    mixedTables.countP is_special_ref = 2 ∧
    (mysqldays_notify true (thdWithTables mixedTables)
        mysql_event_class_t.MYSQL_AUDIT_QUERY_CLASS
        (queryStart enum_sql_command.SQLCOM_DELETE) 0 9
        { status_total_queries := 5, status_total_special_queries := 2
          status_total_time_us := 0, log := [] }).2.status_total_queries = 5 + 1 ∧
    (mysqldays_notify true (thdWithTables mixedTables)
        mysql_event_class_t.MYSQL_AUDIT_QUERY_CLASS
        (queryStart enum_sql_command.SQLCOM_DELETE) 0 9
        { status_total_queries := 5, status_total_special_queries := 2
          status_total_time_us := 0, log := [] }).2.status_total_special_queries
      = 2 + mixedTables.countP is_special_ref :=
  have h := scan_adds_number_of_special_refs (thdWithTables mixedTables)
    mysql_event_class_t.MYSQL_AUDIT_QUERY_CLASS
    (queryStart enum_sql_command.SQLCOM_DELETE) 0 9
    { status_total_queries := 5, status_total_special_queries := 2
      status_total_time_us := 0, log := [] }
    { query_tables := mixedTables } (by decide) rfl (by decide) (by decide)
  ⟨by decide, h.2.2.1 (by decide), h.2.2.2 (by decide)⟩

/-! ## Atomic operations and schedules -/

theorem apply_table_ops (st : PluginState) (t : Table_ref) :
    (table_ops t).foldl apply_op st
      = { st with
          status_total_special_queries := scan_table st.status_total_special_queries t } := by
  obtain ⟨b, v, name⟩ := t
  cases name with
  | none => cases b <;> cases v <;> simp [table_ops, scan_table]
  | some n =>
    by_cases hn : n = "special_table"
    · subst hn
      cases b <;> cases v <;> simp [table_ops, scan_table, apply_op]
    · cases b <;> cases v <;> simp [table_ops, scan_table, hn]

theorem apply_walk_ops (l : List Table_ref) (st : PluginState) :
    (walk_ops l).foldl apply_op st
      = { st with
          status_total_special_queries := scan_tables l st.status_total_special_queries } := by
  induction l generalizing st with
  | nil => simp [walk_ops, scan_tables]
  | cons t l ih => simp [walk_ops, scan_tables, List.foldl_append, apply_table_ops, ih]

/-- Issued alone, the operations of an invocation have the effect of
`mysqldays_notify` on the three counters. -/
theorem notify_ops_sequential (st : PluginState) (i : Invocation) :
    ((notify_ops i).foldl apply_op st).status_total_queries
        = (step st i).status_total_queries ∧
    ((notify_ops i).foldl apply_op st).status_total_special_queries
        = (step st i).status_total_special_queries ∧
    ((notify_ops i).foldl apply_op st).status_total_time_us
        = (step st i).status_total_time_us := by
  obtain ⟨en, thd, ec, ev, s, e⟩ := i
  cases en with
  | false => simp [step, notify_disabled, notify_ops]
  | true =>
    have hlog := skip_independent_of_log ec ev st.log []
    cases hskip : (should_skip_event ec ev st.log).skip with
    | true =>
      rw [hskip] at hlog
      simp [step, notify_skipped thd ec ev s e st hskip, notify_ops, ← hlog]
    | false =>
      rw [hskip] at hlog
      cases hlex : thd.lex with
      | none => simp [step, notify_no_lex thd ec ev s e st hskip hlex, notify_ops, hlex, ← hlog]
      | some lex =>
        cases htab : lex.query_tables with
        | nil =>
          simp [step, notify_no_tables thd ec ev s e st lex hskip hlex htab, notify_ops,
            hlex, htab, ← hlog]
        | cons t l =>
          have hne : lex.query_tables ≠ [] := by simp [htab]
          simp [step, notify_scan thd ec ev s e st lex hskip hlex hne, notify_ops,
            hlex, htab, ← hlog, List.foldl_append, apply_walk_ops, apply_op, atomic_fetch_add]

theorem pending_queries_set (pending : List (List AtomicOp)) (k : Nat) (op : AtomicOp)
    (rest : List AtomicOp) (hk : pending[k]? = some (op :: rest)) :
    pending_queries pending
      = pending_queries (pending.set k rest) + (if is_add_queries op = true then 1 else 0) := by
  induction pending generalizing k with
  | nil => simp at hk
  | cons t ts ih =>
    cases k with
    | zero =>
      simp only [List.getElem?_cons_zero, Option.some.injEq] at hk
      subst hk
      simp only [pending_queries, List.set_cons_zero, List.map_cons, List.sum_cons,
        List.countP_cons]
      omega
    | succ k =>
      simp only [List.getElem?_cons_succ] at hk
      have := ih k hk
      simp only [pending_queries, List.set_cons_succ, List.map_cons, List.sum_cons] at this ⊢
      omega

theorem apply_op_queries (st : PluginState) (op : AtomicOp) :
    (apply_op st op).status_total_queries
      = if is_add_queries op = true then (st.status_total_queries + 1) % ULONG_MOD
        else st.status_total_queries := by
  cases op <;> simp [apply_op, is_add_queries, atomic_fetch_add]

theorem sched_step_queries (c : Config) (k : Nat)
    (hc : c.shared.status_total_queries < ULONG_MOD) :
    (sched_step c k).shared.status_total_queries < ULONG_MOD ∧
    ((sched_step c k).shared.status_total_queries
        + pending_queries (sched_step c k).pending) % ULONG_MOD
      = (c.shared.status_total_queries + pending_queries c.pending) % ULONG_MOD := by
  have hpos : 0 < ULONG_MOD := by decide
  unfold sched_step
  split
  · next op rest hk =>
    have hset := pending_queries_set c.pending k op rest hk
    simp only [apply_op_queries]
    by_cases hop : is_add_queries op = true
    · rw [if_pos hop] at hset ⊢
      refine ⟨Nat.mod_lt _ hpos, ?_⟩
      rw [hset, Nat.mod_add_mod]
      congr 1
      omega
    · rw [if_neg hop] at hset ⊢
      exact ⟨hc, by rw [hset]; rfl⟩
  · exact ⟨hc, rfl⟩

theorem run_schedule_queries (schedule : List Nat) (c : Config)
    (hc : c.shared.status_total_queries < ULONG_MOD) :
    (run_schedule c schedule).shared.status_total_queries < ULONG_MOD ∧
    ((run_schedule c schedule).shared.status_total_queries
        + pending_queries (run_schedule c schedule).pending) % ULONG_MOD
      = (c.shared.status_total_queries + pending_queries c.pending) % ULONG_MOD := by
  induction schedule generalizing c with
  | nil => exact ⟨hc, rfl⟩
  | cons k ks ih =>
    have hstep := sched_step_queries c k hc
    have hrest := ih (sched_step c k) hstep.1
    have hrun : run_schedule c (k :: ks) = run_schedule (sched_step c k) ks := rfl
    rw [hrun]
    exact ⟨hrest.1, hrest.2.trans hstep.2⟩

theorem pending_queries_finished (c : Config) (hfin : finished c = true) :
    pending_queries c.pending = 0 := by
  unfold finished at hfin
  unfold pending_queries
  rw [List.all_eq_true] at hfin
  apply List.sum_eq_zero
  intro n hn
  rw [List.mem_map] at hn
  obtain ⟨t, ht, rfl⟩ := hn
  have := hfin t ht
  rw [List.isEmpty_iff] at this
  rw [this]
  rfl

theorem countP_walk_ops (l : List Table_ref) :
    (walk_ops l).countP is_add_queries = 0 := by
  induction l with
  | nil => rfl
  | cons t l ih =>
    have ht : (table_ops t).countP is_add_queries = 0 := by
      unfold table_ops
      split
      · rfl
      · split
        · rfl
        · split_ifs <;> rfl
    rw [walk_ops, List.countP_append, ht, ih]

theorem countP_notify_ops (i : Invocation) (hw : reaches_walk i = true) :
    (notify_ops i).countP is_add_queries = 1 := by
  obtain ⟨en, thd, ec, ev, s, e⟩ := i
  simp only [reaches_walk, Bool.and_eq_true, Bool.not_eq_true'] at hw
  obtain ⟨⟨hen, hskip⟩, hlex⟩ := hw
  cases hl : thd.lex with
  | none => simp [hl] at hlex
  | some lex =>
    cases htab : lex.query_tables with
    | nil => simp [hl, htab] at hlex
    | cons t l =>
      simp [notify_ops, hen, hskip, hl, htab, List.countP_cons, List.countP_append,
        countP_walk_ops, is_add_queries]

theorem pending_queries_start (invs : List Invocation)
    (hall : ∀ i ∈ invs, reaches_walk i = true) :
    pending_queries (invs.map notify_ops) = invs.length := by
  induction invs with
  | nil => rfl
  | cons i rest ih =>
    have hi := countP_notify_ops i (hall i (List.mem_cons_self _ _))
    have hr := ih (fun j hj => hall j (List.mem_cons_of_mem _ hj))
    simp only [pending_queries, List.map_cons, List.sum_cons, List.length_cons] at hr ⊢
    omega

/-- C14: for every number of concurrent invocations that each reach the walk
(and so each issue one atomic increment of `total_queries`) and every schedule
of their atomic operations that runs all of them to completion, the final
`total_queries` is the initial value plus the number of invocations, in
`unsigned long` arithmetic (the plain sum below `2^64`). -/
theorem concurrent_total_queries (invs : List Invocation) (st : PluginState)
    (schedule : List Nat)
    (hall : ∀ i ∈ invs, reaches_walk i = true)
    (hst : st.status_total_queries < 2 ^ 64)
    (hfin : finished (run_schedule (concurrent_start invs st) schedule) = true) :
    (run_schedule (concurrent_start invs st) schedule).shared.status_total_queries
        = (st.status_total_queries + invs.length) % 2 ^ 64 ∧
    (st.status_total_queries + invs.length < 2 ^ 64 →
      (run_schedule (concurrent_start invs st) schedule).shared.status_total_queries
        = st.status_total_queries + invs.length) := by
  have hrun := run_schedule_queries schedule (concurrent_start invs st) hst
  have h0 := pending_queries_finished _ hfin
  have hN : pending_queries (concurrent_start invs st).pending = invs.length :=
    pending_queries_start invs hall
  rw [h0, hN, Nat.add_zero, Nat.mod_eq_of_lt hrun.1] at hrun
  have hmain : (run_schedule (concurrent_start invs st) schedule).shared.status_total_queries
      = (st.status_total_queries + invs.length) % 2 ^ 64 := hrun.2
  exact ⟨hmain, fun h => by rw [hmain, Nat.mod_eq_of_lt h]⟩

/-- Witness for C14: three interleaved invocations from `total_queries = 10`
end with `total_queries = 13`. -/
theorem concurrent_total_queries_witness :
    finished (run_schedule
      (concurrent_start concurrentInvocations
        { status_total_queries := 10, status_total_special_queries := 0
          status_total_time_us := 0, log := [] }) interleavedSchedule) = true ∧
    (run_schedule
      (concurrent_start concurrentInvocations
        { status_total_queries := 10, status_total_special_queries := 0
          status_total_time_us := 0, log := [] })
      interleavedSchedule).shared.status_total_queries = 10 + 3 :=
  have hfin : finished (run_schedule
      (concurrent_start concurrentInvocations
        { status_total_queries := 10, status_total_special_queries := 0
          status_total_time_us := 0, log := [] }) interleavedSchedule) = true := by decide
  ⟨hfin,
    (concurrent_total_queries concurrentInvocations
      { status_total_queries := 10, status_total_special_queries := 0
        status_total_time_us := 0, log := [] }
      interleavedSchedule (by decide) (by decide) hfin).2 (by decide)⟩

end MysqlDays
